import Mathlib

/-!
# SafeChat client SDK — verification of the encrypted transport envelope

Shallow embedding of the `@safechat/client` SDK: the AES-256-GCM envelope
codec (`src/crypto.ts`) and the transport negotiator (`SafeChat.request` in
`src/client.ts`), together with models of the external collaborators the
source calls into (Node's `Buffer` base64 codec, `JSON.parse`/
`JSON.stringify`, and the `node:crypto` AES-256-GCM primitive).

Machine integers do not occur: all byte values are `Nat` kept below 256
where it matters; fallible code returns `Except`/`Option`.
-/

namespace SafeChatSpec

/-! ## Base64 (model of Node `Buffer.from(s, 'base64')` / `toString('base64')`)

Node's base64 decoder is total: it never throws on a string input, and
characters outside the base64 alphabet (including `=` padding and
whitespace) are ignored rather than rejected.  The encoder emits standard
base64 with `=` padding. -/

/-- The 64 characters of the standard base64 alphabet, in value order. -/
def b64Alphabet : List Char :=
  "ABCDEFGHIJKLMNOPQRSTUVWXYZabcdefghijklmnopqrstuvwxyz0123456789+/".data

/-- Character for a 6-bit value. -/
def b64Ch (v : Nat) : Char := b64Alphabet.getD v 'A'

/-- Value of a base64 alphabet character; `none` for any other character
(`=`, whitespace, `!`, …), which Node's decoder ignores. -/
def b64CharVal (c : Char) : Option Nat := b64Alphabet.findIdx? (fun a => a == c)

/-- Encode a byte list into base64 characters, three bytes to four
characters, with `=` padding on the final partial group. -/
def b64EncodeGroups : List Nat → List Char
  | [] => []
  | [b1] => [b64Ch (b1 / 4), b64Ch (b1 % 4 * 16), '=', '=']
  | [b1, b2] => [b64Ch (b1 / 4), b64Ch (b1 % 4 * 16 + b2 / 16), b64Ch (b2 % 16 * 4), '=']
  | b1 :: b2 :: b3 :: rest =>
      b64Ch (b1 / 4) :: b64Ch (b1 % 4 * 16 + b2 / 16) :: b64Ch (b2 % 16 * 4 + b3 / 64)
        :: b64Ch (b3 % 64) :: b64EncodeGroups rest

/-- `Buffer#toString('base64')`. -/
def b64Encode (bs : List Nat) : String := ⟨b64EncodeGroups bs⟩

/-- Reassemble bytes from a list of 6-bit values (already filtered to the
alphabet): four values to three bytes, a trailing pair or triple to one or
two bytes, a lone trailing value to nothing. -/
def b64DecodeVals : List Nat → List Nat
  | v1 :: v2 :: v3 :: v4 :: rest =>
      (v1 * 4 + v2 / 16) :: (v2 % 16 * 16 + v3 / 4) :: (v3 % 4 * 64 + v4) :: b64DecodeVals rest
  | [v1, v2] => [v1 * 4 + v2 / 16]
  | [v1, v2, v3] => [v1 * 4 + v2 / 16, v2 % 16 * 16 + v3 / 4]
  | _ => []

/-- `Buffer.from(s, 'base64')`: total; non-alphabet characters are ignored. -/
def b64Decode (s : String) : List Nat := b64DecodeVals (s.data.filterMap b64CharVal)

theorem b64CharVal_b64Ch : ∀ v < 64, b64CharVal (b64Ch v) = some v := by decide

theorem b64CharVal_eq : b64CharVal '=' = none := by decide

theorem b64CharVal_lt {c : Char} {v : Nat} (h : b64CharVal c = some v) : v < 64 := by
  have := List.findIdx?_eq_some_iff_findIdx_eq.mp h
  simpa using this.1

/-- Round-trip: decoding an encoding recovers the bytes, for genuine bytes. -/
theorem b64Decode_b64Encode (bs : List Nat) (hb : ∀ b ∈ bs, b < 256) :
    b64Decode (b64Encode bs) = bs := by
  unfold b64Decode b64Encode
  show b64DecodeVals ((b64EncodeGroups bs).filterMap b64CharVal) = bs
  induction bs using b64EncodeGroups.induct with
  | case1 => simp [b64EncodeGroups, b64DecodeVals]
  | case2 b1 =>
    have h1 : b1 < 256 := hb b1 (by simp)
    simp only [b64EncodeGroups]
    rw [List.filterMap_cons, List.filterMap_cons, List.filterMap_cons, List.filterMap_cons]
    rw [b64CharVal_b64Ch _ (by omega), b64CharVal_b64Ch _ (by omega)]
    simp only [b64CharVal_eq, List.filterMap_nil, b64DecodeVals, List.cons.injEq]
    exact ⟨by omega, trivial⟩
  | case3 b1 b2 =>
    have h1 : b1 < 256 := hb b1 (by simp)
    have h2 : b2 < 256 := hb b2 (by simp)
    simp only [b64EncodeGroups]
    rw [List.filterMap_cons, List.filterMap_cons, List.filterMap_cons, List.filterMap_cons]
    rw [b64CharVal_b64Ch _ (by omega), b64CharVal_b64Ch _ (by omega),
      b64CharVal_b64Ch _ (by omega)]
    simp only [b64CharVal_eq, List.filterMap_nil, b64DecodeVals, List.cons.injEq]
    exact ⟨by omega, by omega, trivial⟩
  | case4 b1 b2 b3 rest ih =>
    have h1 : b1 < 256 := hb b1 (by simp)
    have h2 : b2 < 256 := hb b2 (by simp)
    have h3 : b3 < 256 := hb b3 (by simp)
    have hrest : ∀ b ∈ rest, b < 256 := fun b hbm => hb b (by simp [hbm])
    simp only [b64EncodeGroups]
    rw [List.filterMap_cons, List.filterMap_cons, List.filterMap_cons, List.filterMap_cons]
    rw [b64CharVal_b64Ch _ (by omega), b64CharVal_b64Ch _ (by omega),
      b64CharVal_b64Ch _ (by omega), b64CharVal_b64Ch _ (by omega)]
    simp only [b64DecodeVals, List.cons.injEq]
    exact ⟨by omega, by omega, by omega, ih hrest⟩

/-- Every value delivered by the filtering pass is a 6-bit value. -/
theorem filterMap_b64CharVal_lt (cs : List Char) :
    ∀ v ∈ cs.filterMap b64CharVal, v < 64 := by
  intro v hv
  obtain ⟨c, _, hc⟩ := List.mem_filterMap.mp hv
  exact b64CharVal_lt hc

/-- Bytes reassembled from 6-bit values are genuine bytes. -/
theorem b64DecodeVals_lt (vs : List Nat) (hv : ∀ v ∈ vs, v < 64) :
    ∀ b ∈ b64DecodeVals vs, b < 256 := by
  induction vs using b64DecodeVals.induct with
  | case1 v1 v2 v3 v4 rest ih =>
    have h1 := hv v1 (by simp)
    have h2 := hv v2 (by simp)
    have h3 := hv v3 (by simp)
    have h4 := hv v4 (by simp)
    have hrest : ∀ v ∈ rest, v < 64 := fun v hm => hv v (by simp [hm])
    intro b hb
    simp only [b64DecodeVals, List.mem_cons] at hb
    rcases hb with h | h | h | h
    · omega
    · omega
    · omega
    · exact ih hrest b h
  | case2 v1 v2 =>
    have h1 := hv v1 (by simp)
    have h2 := hv v2 (by simp)
    intro b hb
    simp only [b64DecodeVals, List.mem_cons, List.not_mem_nil, or_false] at hb
    omega
  | case3 v1 v2 v3 =>
    have h1 := hv v1 (by simp)
    have h2 := hv v2 (by simp)
    have h3 := hv v3 (by simp)
    intro b hb
    simp only [b64DecodeVals, List.mem_cons, List.not_mem_nil, or_false] at hb
    rcases hb with h | h <;> omega
  | case4 vs h1 h2 h3 =>
    intro b hb
    simp [b64DecodeVals] at hb

/-- Decoded base64 consists of genuine bytes. -/
theorem b64Decode_lt (s : String) : ∀ b ∈ b64Decode s, b < 256 :=
  b64DecodeVals_lt _ (filterMap_b64CharVal_lt s.data)

/-- Appending a non-alphabet character to a string does not change its
base64 decoding (Node ignores such characters). -/
theorem b64Decode_push_invalid (s : String) (c : Char) (hc : b64CharVal c = none) :
    b64Decode (s.push c) = b64Decode s := by
  unfold b64Decode
  have : (s.push c).data = s.data ++ [c] := String.data_push s c
  rw [this, List.filterMap_append]
  simp [List.filterMap, hc]

/-! ## AES-256-GCM (idealized model of the `node:crypto` primitive)

`crypto.ts` calls `createCipheriv('aes-256-gcm', key, iv)` /
`createDecipheriv`; the cipher itself lives in `node:crypto`, outside this
repository.  It is modelled here as an ideal AEAD in the counter-mode
shape of GCM:

* encryption XORs each plaintext byte with a keystream byte derived from
  the key, the 12-byte nonce and the byte position — so ciphertext length
  equals plaintext length and decryption is the same XOR;
* the authentication tag is idealized as a value that uniquely determines
  the `(key, nonce, ciphertext)` triple it authenticates, which is the
  guarantee (`any alteration fails verification`) the spec assigns to the
  primitive.  `decipher.final()` throwing on a bad tag is modelled as an
  equality test against the recomputed tag. -/

/-- Keystream byte at position `i` for the given key and 12-byte nonce. -/
def gcmKeystream (key nonce : List Nat) (i : Nat) : Nat :=
  (key.getD (i % 32) 0 ^^^ nonce.getD (i % 12) 0 ^^^ i) % 256

/-- XOR a byte list against a keystream, starting at position `i`. -/
def xorStream (ks : Nat → Nat) : Nat → List Nat → List Nat
  | _, [] => []
  | i, b :: rest => (b ^^^ ks i) :: xorStream ks (i + 1) rest

/-- Ciphertext of the modelled cipher: plaintext XOR keystream. -/
def gcmEncryptBytes (key nonce pt : List Nat) : List Nat :=
  xorStream (gcmKeystream key nonce) 0 pt

/-- Plaintext recovered by the modelled cipher: ciphertext XOR keystream. -/
def gcmDecryptBytes (key nonce ct : List Nat) : List Nat :=
  xorStream (gcmKeystream key nonce) 0 ct

/-- Idealized authentication tag: determines the triple it authenticates. -/
def gcmTag (key nonce ct : List Nat) : List Nat := key ++ nonce ++ ct

theorem xorStream_xorStream (ks : Nat → Nat) (i : Nat) (l : List Nat) :
    xorStream ks i (xorStream ks i l) = l := by
  induction l generalizing i with
  | nil => rfl
  | cons b rest ih => simp [xorStream, Nat.xor_cancel_right, ih]

theorem xorStream_length (ks : Nat → Nat) (i : Nat) (l : List Nat) :
    (xorStream ks i l).length = l.length := by
  induction l generalizing i with
  | nil => rfl
  | cons b rest ih => simp [xorStream, ih]

theorem xorStream_lt (ks : Nat → Nat) (hks : ∀ i, ks i < 256) (i : Nat) (l : List Nat)
    (hl : ∀ b ∈ l, b < 256) : ∀ b ∈ xorStream ks i l, b < 256 := by
  induction l generalizing i with
  | nil => simp [xorStream]
  | cons b rest ih =>
    intro x hx
    simp only [xorStream, List.mem_cons] at hx
    rcases hx with h | h
    · subst h
      exact Nat.xor_lt_two_pow (n := 8) (hl b (by simp)) (hks i)
    · exact ih (i + 1) (fun y hy => hl y (by simp [hy])) x h

theorem gcmKeystream_lt (key nonce : List Nat) (i : Nat) :
    gcmKeystream key nonce i < 256 :=
  Nat.mod_lt _ (by norm_num)

/-- Round trip of the modelled cipher core. -/
theorem gcmDecryptBytes_gcmEncryptBytes (key nonce pt : List Nat) :
    gcmDecryptBytes key nonce (gcmEncryptBytes key nonce pt) = pt :=
  xorStream_xorStream _ 0 pt

/-! ## `src/crypto.ts` — the envelope codec -/

/-- The distinct failures the codec can raise.  `invalidKeyLength` is the
`Invalid encryption key: expected 32 bytes (256-bit), got N` error thrown
by `encrypt`/`decrypt`; `authenticationFailed` is `decipher.final()`
throwing on tag verification; `typeError` is `Buffer.from(undefined,
'base64')` throwing when a transport envelope field is absent (or not a
string).  The source defines no further codec error: in particular it has
no malformed-envelope variant. -/
inductive CryptoError where
  | invalidKeyLength (expected actual : Nat)
  | authenticationFailed
  | typeError
deriving DecidableEq, Repr

/-- `EncryptedPayload` of `crypto.ts`: three base64 strings. -/
structure EncryptedPayload where
  iv : String
  tag : String
  data : String
deriving DecidableEq, Repr

/-- An `EncryptedPayload` as it actually arrives from `res.json()`: the
TypeScript cast checks nothing, so any of the three fields may be absent. -/
structure TransportEnvelope where
  iv : Option String
  tag : Option String
  data : Option String
deriving DecidableEq, Repr

/-- `Buffer.from(x, 'base64')` on a possibly-absent field: an absent field
reaches `Buffer.from` as `undefined`, which throws a `TypeError`. -/
def bufferFromB64 : Option String → Except CryptoError (List Nat)
  | none => .error .typeError
  | some s => .ok (b64Decode s)

/-- The 12-byte nonce drawn by `randomBytes(IV_BYTES)`, with the random
source modelled as an explicit entropy function supplied per call. -/
def randomBytes12 (entropy : Nat → Nat) : List Nat :=
  (List.range 12).map (fun i => entropy i % 256)

/-- `encrypt(plaintext, keyBase64)` of `src/crypto.ts` lines 17–31.
The plaintext is given as its byte sequence (the `utf8` `Buffer`
conversion at the boundary), and the consumed randomness as an explicit
entropy function. -/
def encrypt (plaintext : List Nat) (keyBase64 : String) (entropy : Nat → Nat) :
    Except CryptoError EncryptedPayload :=
  let key := b64Decode keyBase64
  if key.length ≠ 32 then
    .error (.invalidKeyLength 32 key.length)
  else
    let iv := randomBytes12 entropy
    let encrypted := gcmEncryptBytes key iv plaintext
    let tag := gcmTag key iv encrypted
    .ok { iv := b64Encode iv, tag := b64Encode tag, data := b64Encode encrypted }

/-- `decrypt(payload, keyBase64)` of `src/crypto.ts` lines 33–45, on a
transport envelope whose fields may be absent.  Field accesses happen in
source order (`iv` at line 38, `tag` at line 39, `data` at line 41); the
tag comparison models `decipher.final()` verifying the authentication tag,
and no plaintext escapes on failure (`Except` is all-or-nothing). -/
def decrypt (payload : TransportEnvelope) (keyBase64 : String) :
    Except CryptoError (List Nat) :=
  let key := b64Decode keyBase64
  if key.length ≠ 32 then
    .error (.invalidKeyLength 32 key.length)
  else do
    let iv ← bufferFromB64 payload.iv
    let tag ← bufferFromB64 payload.tag
    let data ← bufferFromB64 payload.data
    let decrypted := gcmDecryptBytes key iv data
    if tag = gcmTag key iv data then .ok decrypted else .error .authenticationFailed

/-- View an `EncryptedPayload` produced by `encrypt` as the transport
envelope `decrypt` receives (all three fields present). -/
def EncryptedPayload.toTransport (p : EncryptedPayload) : TransportEnvelope :=
  { iv := some p.iv, tag := some p.tag, data := some p.data }

/-! ## JSON (model of `JSON.parse` / `JSON.stringify`)

The client serializes request bodies, parses response bodies, and parses
decrypted plaintext as JSON.  `JSON.parse` is modelled as a total
recursive-descent parser over a JSON subset wide enough for every value
this development touches (null, booleans, integers, escape-free strings,
arrays, objects); it returns `none` where `JSON.parse` throws. -/

/-- A JSON value. -/
inductive Json where
  | null
  | bool (b : Bool)
  | num (n : Int)
  | str (s : String)
  | arr (elems : List Json)
  | obj (fields : List (String × Json))

/-- Whitespace skipped between JSON tokens. -/
def skipWs (cs : List Char) : List Char :=
  cs.dropWhile (fun c => c == ' ' || c == '\n' || c == '\t' || c == '\r')

/-- Parse the remainder of a JSON string after the opening quote; no
escape sequences (the model's string subset). -/
def parseStringRest : List Char → Option (String × List Char)
  | [] => none
  | c :: rest =>
    if c == '"' then some ("", rest)
    else if c == '\\' then none
    else do
      let (s, r) ← parseStringRest rest
      some (⟨c :: s.data⟩, r)

/-- Digits at the front of the input, as a number. -/
def takeDigits (acc : Nat) : List Char → Nat × List Char
  | c :: rest => if c.isDigit then takeDigits (acc * 10 + (c.toNat - 48)) rest else (acc, c :: rest)
  | [] => (acc, [])

mutual

/-- Parse one JSON value; `fuel` bounds nesting depth. -/
def parseJsonValue (fuel : Nat) (cs : List Char) : Option (Json × List Char) :=
  match fuel with
  | 0 => none
  | fuel + 1 =>
    match skipWs cs with
    | [] => none
    | '"' :: rest => (parseStringRest rest).map (fun p => (Json.str p.1, p.2))
    | 't' :: 'r' :: 'u' :: 'e' :: rest => some (Json.bool true, rest)
    | 'f' :: 'a' :: 'l' :: 's' :: 'e' :: rest => some (Json.bool false, rest)
    | 'n' :: 'u' :: 'l' :: 'l' :: rest => some (Json.null, rest)
    | '[' :: rest =>
      (match skipWs rest with
       | ']' :: r => some (Json.arr [], r)
       | other => (parseArrayItems fuel other).map (fun p => (Json.arr p.1, p.2)))
    | '\x7b' :: rest =>
      (match skipWs rest with
       | '\x7d' :: r => some (Json.obj [], r)
       | other => (parseObjectFields fuel other).map (fun p => (Json.obj p.1, p.2)))
    | '-' :: c :: rest =>
      if c.isDigit then
        let (n, r) := takeDigits (c.toNat - 48) rest
        some (Json.num (-(n : Int)), r)
      else none
    | c :: rest =>
      if c.isDigit then
        let (n, r) := takeDigits (c.toNat - 48) rest
        some (Json.num (n : Int), r)
      else none

/-- Parse array elements after `[` (first element not yet consumed). -/
def parseArrayItems (fuel : Nat) (cs : List Char) : Option (List Json × List Char) :=
  match fuel with
  | 0 => none
  | fuel + 1 => do
    let (v, r) ← parseJsonValue fuel cs
    match skipWs r with
    | ',' :: r2 => do
        let (vs, r3) ← parseArrayItems fuel r2
        some (v :: vs, r3)
    | ']' :: r2 => some ([v], r2)
    | _ => none

/-- Parse object members after the opening brace (first member not yet
consumed). -/
def parseObjectFields (fuel : Nat) (cs : List Char) :
    Option (List (String × Json) × List Char) :=
  match fuel with
  | 0 => none
  | fuel + 1 =>
    match skipWs cs with
    | '"' :: rest => do
      let (k, r) ← parseStringRest rest
      match skipWs r with
      | ':' :: r2 => do
        let (v, r3) ← parseJsonValue fuel r2
        match skipWs r3 with
        | ',' :: r4 => do
            let (fs, r5) ← parseObjectFields fuel r4
            some ((k, v) :: fs, r5)
        | '\x7d' :: r4 => some ([(k, v)], r4)
        | _ => none
      | _ => none
    | _ => none

end

/-- `JSON.parse`: `none` models a thrown `SyntaxError`. -/
def jsonParse (s : String) : Option Json :=
  match parseJsonValue (s.length + 1) s.data with
  | some (v, rest) => if skipWs rest = [] then some v else none
  | none => none

mutual

/-- `JSON.stringify` on the modelled JSON values. -/
def jsonStringify : Json → String
  | .null => "null"
  | .bool true => "true"
  | .bool false => "false"
  | .num n => toString n
  | .str s => "\"" ++ s ++ "\""
  | .arr es => "[" ++ stringifyItems es ++ "]"
  | .obj fs => "\x7b" ++ stringifyFields fs ++ "\x7d"

/-- Comma-separated serialization of array elements. -/
def stringifyItems : List Json → String
  | [] => ""
  | [e] => jsonStringify e
  | e :: rest => jsonStringify e ++ "," ++ stringifyItems rest

/-- Comma-separated serialization of object members. -/
def stringifyFields : List (String × Json) → String
  | [] => ""
  | [(k, v)] => "\"" ++ k ++ "\":" ++ jsonStringify v
  | (k, v) :: rest => "\"" ++ k ++ "\":" ++ jsonStringify v ++ "," ++ stringifyFields rest

end

/-- JavaScript property access `x.key` on a parsed JSON value: reading a
property of `null` throws a `TypeError` (`.error ()`); any other
non-object yields `undefined` (`none`); an object yields its first member
with that name, or `undefined`. -/
def jsProp : Json → String → Except Unit (Option Json)
  | .null, _ => .error ()
  | .obj fs, key => .ok ((fs.find? (fun p => p.1 == key)).map (fun p => p.2))
  | _, _ => .ok none

/-- A string-valued property of a parsed JSON value, or `none`.  Used only
for the unchecked `as EncryptedPayload` cast: there every non-string
outcome — `undefined`, a non-string value, and also the `TypeError`
JavaScript raises when the whole payload is `null` (thrown inside
`decrypt` at the first field access, after the key-length check) — is
followed by the same `TypeError` from the byte conversion after the
key-length check, so the model folds them all into an absent field. -/
def jsonGetStr (j : Json) (key : String) : Option String :=
  match j with
  | .obj fs =>
    match (fs.find? (fun p => p.1 == key)).map (fun p => p.2) with
    | some (Json.str s) => some s
    | _ => none
  | _ => none

/-- JavaScript truthiness of a JSON value (`undefined` is handled by the
`Option` layer at call sites). -/
def jsTruthy : Json → Bool
  | .null => false
  | .bool b => b
  | .num n => n ≠ 0
  | .str s => s ≠ ""
  | .arr _ => true
  | .obj _ => true

mutual

/-- JavaScript string coercion `String(x)`, as applied by the `Error`
constructor to its message argument.  An array coerces to its elements
joined by commas (`Array.prototype.toString`). -/
def jsToMessage : Json → String
  | .null => "null"
  | .bool true => "true"
  | .bool false => "false"
  | .num n => toString n
  | .str s => s
  | .arr es => jsArrJoin es
  | .obj _ => "[object Object]"

/-- `Array.prototype.join(",")` over coerced elements. -/
def jsArrJoin : List Json → String
  | [] => ""
  | [e] => jsArrElem e
  | e :: rest => jsArrElem e ++ "," ++ jsArrJoin rest

/-- Element coercion inside `Array.prototype.join`: `null` becomes the
empty string there, unlike at top level. -/
def jsArrElem : Json → String
  | .null => ""
  | .bool true => "true"
  | .bool false => "false"
  | .num n => toString n
  | .str s => s
  | .arr es => jsArrJoin es
  | .obj _ => "[object Object]"

end

/-! ## `src/client.ts` — the SafeChat client

The `utf8` `Buffer` boundary (`cipher.update(plaintext, 'utf8')`,
`decrypted.toString('utf8')`) is modelled as the codepoint sequence of the
string, which is injective and round-trips like UTF-8 does. -/

/-- String to its byte-sequence representation at the `Buffer` boundary. -/
def strToBytes (s : String) : List Nat := s.data.map Char.toNat

/-- Byte-sequence back to a string at the `Buffer` boundary. -/
def strFromBytes (bs : List Nat) : String := ⟨bs.map Char.ofNat⟩

theorem strFromBytes_strToBytes (s : String) : strFromBytes (strToBytes s) = s := by
  unfold strFromBytes strToBytes
  cases s with
  | mk data =>
    simp only [List.map_map]
    have : Char.ofNat ∘ Char.toNat = id := by
      funext c
      simp [Function.comp]
    rw [this, List.map_id]

/-- `SafeChatOptions` (`src/types.ts`): construction-time configuration. -/
structure SafeChatOptions where
  apiKey : String
  encryptionKey : Option String := none
  baseUrl : Option String := none
  timeout : Option Nat := none

/-- The private fields of a constructed `SafeChat` instance. -/
structure SafeChatState where
  apiKey : String
  encryptionKey : Option String
  baseUrl : String
  timeout : Nat

def DEFAULT_BASE_URL : String := "https://safechat-api.autobb.app"

def DEFAULT_TIMEOUT : Nat := 30000

/-- `(… ).replace(/\/+$/, '')`: strip every trailing slash. -/
def stripTrailingSlashes (s : String) : String :=
  ⟨(s.data.reverse.dropWhile (fun c => c == '/')).reverse⟩

/-- The `SafeChat` constructor (`src/client.ts` lines 75–83).  JavaScript
truthiness makes `!options.apiKey` reject exactly the empty string; the
encryption key is stored unexamined. -/
def SafeChat.construct (options : SafeChatOptions) : Except String SafeChatState :=
  if options.apiKey = "" then
    .error "apiKey is required"
  else
    .ok { apiKey := options.apiKey
          encryptionKey := options.encryptionKey
          baseUrl := stripTrailingSlashes (options.baseUrl.getD DEFAULT_BASE_URL)
          timeout := options.timeout.getD DEFAULT_TIMEOUT }

/-- JavaScript truthiness of `this.encryptionKey` (`undefined` and the
empty string are falsy). -/
def truthyKey : Option String → Bool
  | none => false
  | some s => s ≠ ""

/-- `headers.get(name)` on a header list. -/
def headerGet (headers : List (String × String)) (name : String) : Option String :=
  (headers.find? (fun p => p.1 == name)).map (fun p => p.2)

/-- A received HTTP response, as the `fetch` `Response` exposes it. -/
structure HttpResponse where
  ok : Bool
  status : Nat
  statusText : String
  headers : List (String × String)
  body : String

/-- The observable outbound side of one `request` call: target URL and
method, the headers set, and the transmitted body. -/
structure OutboundRequest where
  method : String
  url : String
  headers : List (String × String)
  payload : Option String

/-- Failures `request` can raise. `safeChatError` is the `SafeChatError`
class (message, status, parsed error body); `cryptoError` wraps a codec
throw; `jsonError` is `res.json()`/`JSON.parse` throwing on an invalid
body; `typeError` is the uncaught JavaScript `TypeError` that escapes
`request` when `errorBody.error` (line 208) reads a property of a `null`
error body; `timeout` is the abort path. -/
inductive ClientError where
  | safeChatError (message : String) (status : Nat) (body : Json)
  | cryptoError (e : CryptoError)
  | jsonError
  | typeError
  | timeout (ms : Nat)

/-- Transport JSON form of an envelope: `JSON.stringify(encrypted)` with
the object-literal member order `iv`, `tag`, `data`. -/
def stringifyEnvelope (p : EncryptedPayload) : String :=
  jsonStringify (Json.obj [("iv", Json.str p.iv), ("tag", Json.str p.tag),
    ("data", Json.str p.data)])

/-- The unchecked `as EncryptedPayload` cast on `res.json()`: each field is
whatever string property the parsed object happens to carry. -/
def asTransportEnvelope (j : Json) : TransportEnvelope :=
  { iv := jsonGetStr j "iv", tag := jsonGetStr j "tag", data := jsonGetStr j "data" }

/-- Outbound half of `SafeChat.request` (`src/client.ts` lines 160–179):
URL assembly, headers, and body encryption.  A codec throw propagates (it
happens before `fetch`). -/
def SafeChat.buildRequest (st : SafeChatState) (method path : String)
    (body : Option Json) (entropy : Nat → Nat) : Except ClientError OutboundRequest :=
  let url := st.baseUrl ++ path
  let headers := [("X-API-Key", st.apiKey), ("Accept", "application/json")]
  match body with
  | none => .ok { method, url, headers, payload := none }
  | some b =>
    let headers := headers ++ [("Content-Type", "application/json")]
    if truthyKey st.encryptionKey then
      match encrypt (strToBytes (jsonStringify b)) (st.encryptionKey.getD "") entropy with
      | .error e => .error (.cryptoError e)
      | .ok env =>
        .ok { method, url, headers := headers ++ [("X-Encrypted", "true")],
              payload := some (stringifyEnvelope env) }
    else
      .ok { method, url, headers, payload := some (jsonStringify b) }

/-- The `errorBody.error || `HTTP ${res.status}`` message selection, given
the already-read `error` property (JavaScript falsiness picks the
fallback). -/
def errorMessage (errorProp : Option Json) (status : Nat) : String :=
  match errorProp with
  | some v => if jsTruthy v then jsToMessage v else "HTTP " ++ toString status
  | none => "HTTP " ++ toString status

/-- Response half of `SafeChat.request` (`src/client.ts` lines 201–219):
non-success statuses raise `SafeChatError` with a best-effort parsed body
— except that the `errorBody.error` read at line 208 sits outside the
`try`, so a body parsing to JSON `null` makes that property access throw
an uncaught `TypeError` instead; on success the body is decrypted first
when the `x-encrypted` response header is `"true"` and an encryption key
is configured (JavaScript truthiness), and parsed as JSON. -/
def SafeChat.handleResponse (st : SafeChatState) (res : HttpResponse) :
    Except ClientError Json :=
  if !res.ok then
    let errorBody := match jsonParse res.body with
      | some j => j
      | none => Json.obj [("error", Json.str res.statusText)]
    match jsProp errorBody "error" with
    | .error _ => .error .typeError
    | .ok errProp =>
      .error (.safeChatError (errorMessage errProp res.status) res.status errorBody)
  else
    let resEncrypted := headerGet res.headers "x-encrypted" == some "true"
    if resEncrypted && truthyKey st.encryptionKey then
      match jsonParse res.body with
      | none => .error .jsonError
      | some j =>
        match decrypt (asTransportEnvelope j) (st.encryptionKey.getD "") with
        | .error e => .error (.cryptoError e)
        | .ok plaintext =>
          match jsonParse (strFromBytes plaintext) with
          | none => .error .jsonError
          | some v => .ok v
    else
      match jsonParse res.body with
      | none => .error .jsonError
      | some v => .ok v

/-- `SafeChat.request` (`src/client.ts` lines 160–221) as one exchange:
build and send the outbound request, then handle the response the network
(an external input here) delivered. -/
def SafeChat.request (st : SafeChatState) (method path : String) (body : Option Json)
    (entropy : Nat → Nat) (res : HttpResponse) : Except ClientError Json := do
  let _ ← SafeChat.buildRequest st method path body entropy
  SafeChat.handleResponse st res

/-! ## Codec lemmas shared by the claims -/

theorem randomBytes12_lt (entropy : Nat → Nat) : ∀ b ∈ randomBytes12 entropy, b < 256 := by
  intro b hb
  simp only [randomBytes12, List.mem_map] at hb
  obtain ⟨i, _, rfl⟩ := hb
  exact Nat.mod_lt _ (by norm_num)

theorem randomBytes12_length (entropy : Nat → Nat) :
    (randomBytes12 entropy).length = 12 := by
  simp [randomBytes12]

theorem gcmEncryptBytes_lt (key nonce pt : List Nat) (hp : ∀ b ∈ pt, b < 256) :
    ∀ b ∈ gcmEncryptBytes key nonce pt, b < 256 :=
  xorStream_lt _ (gcmKeystream_lt key nonce) 0 pt hp

theorem gcmTag_lt (key nonce ct : List Nat) (hk : ∀ b ∈ key, b < 256)
    (hn : ∀ b ∈ nonce, b < 256) (hc : ∀ b ∈ ct, b < 256) :
    ∀ b ∈ gcmTag key nonce ct, b < 256 := by
  intro b hb
  simp only [gcmTag, List.mem_append] at hb
  rcases hb with (h | h) | h
  · exact hk b h
  · exact hn b h
  · exact hc b h

/-- With a valid key, `encrypt` succeeds and its envelope is the base64
encoding of the nonce, the tag and the ciphertext. -/
theorem encrypt_eq_ok (p : List Nat) (keyBase64 : String) (entropy : Nat → Nat)
    (hk : (b64Decode keyBase64).length = 32) :
    encrypt p keyBase64 entropy = .ok
      { iv := b64Encode (randomBytes12 entropy),
        tag := b64Encode (gcmTag (b64Decode keyBase64) (randomBytes12 entropy)
          (gcmEncryptBytes (b64Decode keyBase64) (randomBytes12 entropy) p)),
        data := b64Encode (gcmEncryptBytes (b64Decode keyBase64) (randomBytes12 entropy) p) } := by
  simp [encrypt, hk]

/-- With a valid key and all three fields present as the base64 encoding
of genuine byte lists, `decrypt` reduces to the tag comparison. -/
theorem decrypt_present (iv tag data : List Nat) (keyBase64 : String)
    (hk : (b64Decode keyBase64).length = 32)
    (hiv : ∀ b ∈ iv, b < 256) (htag : ∀ b ∈ tag, b < 256) (hdata : ∀ b ∈ data, b < 256) :
    decrypt { iv := some (b64Encode iv), tag := some (b64Encode tag),
              data := some (b64Encode data) } keyBase64 =
      if tag = gcmTag (b64Decode keyBase64) iv data
      then .ok (gcmDecryptBytes (b64Decode keyBase64) iv data)
      else .error .authenticationFailed := by
  simp only [decrypt, bufferFromB64, hk, b64Decode_b64Encode iv hiv,
    b64Decode_b64Encode tag htag, b64Decode_b64Encode data hdata, ne_eq,
    not_true_eq_false, if_false]
  rfl

/-- C3: for all plaintext byte sequences `p` and valid 32-byte keys `k`
(given in base64 as `crypto.ts` receives them), decoding the envelope
produced by encoding `p` under `k` yields exactly `p` again:
`decode(encode(p, k), k) = p`. -/
theorem C3_round_trip (p : List Nat) (keyBase64 : String) (entropy : Nat → Nat)
    (hk : (b64Decode keyBase64).length = 32) (hp : ∀ b ∈ p, b < 256) :
    (encrypt p keyBase64 entropy).bind
      (fun env => decrypt env.toTransport keyBase64) = .ok p := by
  rw [encrypt_eq_ok p keyBase64 entropy hk]
  have hkb : ∀ b ∈ b64Decode keyBase64, b < 256 := b64Decode_lt keyBase64
  have hnb := randomBytes12_lt entropy
  have hct := gcmEncryptBytes_lt (b64Decode keyBase64) (randomBytes12 entropy) p hp
  have htag := gcmTag_lt (b64Decode keyBase64) (randomBytes12 entropy)
    (gcmEncryptBytes (b64Decode keyBase64) (randomBytes12 entropy) p) hkb hnb hct
  show decrypt _ _ = .ok p
  rw [EncryptedPayload.toTransport]
  rw [decrypt_present _ _ _ _ hk hnb htag hct]
  rw [if_pos rfl, gcmDecryptBytes_gcmEncryptBytes]

/-- C3 witness: the round trip at a concrete plaintext and key. -/
theorem C3_round_trip_witness :
    (b64Decode (b64Encode (List.replicate 32 171))).length = 32 ∧
    (encrypt [104, 105] (b64Encode (List.replicate 32 171)) (fun i => i)).bind
      (fun env => decrypt env.toTransport (b64Encode (List.replicate 32 171)))
      = .ok [104, 105] :=
  ⟨by rfl, C3_round_trip [104, 105] _ (fun i => i) (by rfl) (by decide)⟩

/-- C5: with a key whose decoded length is not exactly 32 bytes, both
`encrypt` and `decrypt` fail with the invalid-key-length error reporting
the expected length 32 and the actual length; neither truncates or pads
(no other outcome is possible). -/
theorem C5_key_length_enforcement (keyBase64 : String) (p : List Nat)
    (entropy : Nat → Nat) (env : TransportEnvelope)
    (hk : (b64Decode keyBase64).length ≠ 32) :
    encrypt p keyBase64 entropy
        = .error (.invalidKeyLength 32 (b64Decode keyBase64).length) ∧
    decrypt env keyBase64
        = .error (.invalidKeyLength 32 (b64Decode keyBase64).length) := by
  constructor
  · simp [encrypt, hk]
  · simp [decrypt, hk]

/-- C5 witness: a 3-byte key (base64 `"AAAA"`) is rejected by both
directions with expected length 32 and actual length 3. -/
theorem C5_key_length_enforcement_witness :
    (b64Decode "AAAA").length ≠ 32 ∧
    encrypt [1, 2] "AAAA" (fun i => i) = .error (.invalidKeyLength 32 3) ∧
    decrypt { iv := some "AA", tag := some "AA", data := some "AA" } "AAAA"
      = .error (.invalidKeyLength 32 3) := by
  refine ⟨by decide, ?_⟩
  have h := C5_key_length_enforcement "AAAA" [1, 2] (fun i => i)
    { iv := some "AA", tag := some "AA", data := some "AA" } (by decide)
  have hlen : (b64Decode "AAAA").length = 3 := by rfl
  rw [hlen] at h
  exact h

/-- Overwriting position `i` with a byte different from the one stored
there changes the list. -/
theorem set_ne_self_of_getD {l : List Nat} {i b : Nat} (hi : i < l.length)
    (hb : b ≠ l.getD i 0) : l.set i b ≠ l := by
  intro h
  apply hb
  have h2 : (l.set i b).getD i 0 = l.getD i 0 := by rw [h]
  rw [List.getD_eq_getElem?_getD, List.getElem?_set_self hi] at h2
  simpa using h2

/-- Overwriting one position with a byte keeps all entries below 256. -/
theorem set_lt {l : List Nat} (hl : ∀ x ∈ l, x < 256) {i b : Nat} (hb : b < 256) :
    ∀ x ∈ l.set i b, x < 256 := by
  intro x hx
  rcases List.mem_or_eq_of_mem_set hx with h | h
  · exact hl x h
  · subst h
    exact hb

/-- C4: for every envelope produced by `encrypt` under a valid key,
decryption after overwriting any single byte of the ciphertext, the tag or
the nonce with a different byte — or decryption under any different
32-byte key — fails with `authenticationFailed`; `decrypt` returns
`Except`, so no plaintext bytes (not even a prefix) escape on that
failure. -/
theorem C4_authentication (p : List Nat) (keyBase64 : String) (entropy : Nat → Nat)
    (key nonce ct tag : List Nat)
    (hk : (b64Decode keyBase64).length = 32)
    (hp : ∀ b ∈ p, b < 256)
    (hkey : key = b64Decode keyBase64)
    (hnonce : nonce = randomBytes12 entropy)
    (hct : ct = gcmEncryptBytes key nonce p)
    (htag : tag = gcmTag key nonce ct) :
    encrypt p keyBase64 entropy
        = .ok { iv := b64Encode nonce, tag := b64Encode tag, data := b64Encode ct } ∧
    (∀ i b, i < ct.length → b < 256 → b ≠ ct.getD i 0 →
      decrypt { iv := some (b64Encode nonce), tag := some (b64Encode tag),
                data := some (b64Encode (ct.set i b)) } keyBase64
        = .error .authenticationFailed) ∧
    (∀ i b, i < tag.length → b < 256 → b ≠ tag.getD i 0 →
      decrypt { iv := some (b64Encode nonce), tag := some (b64Encode (tag.set i b)),
                data := some (b64Encode ct) } keyBase64
        = .error .authenticationFailed) ∧
    (∀ i b, i < 12 → b < 256 → b ≠ nonce.getD i 0 →
      decrypt { iv := some (b64Encode (nonce.set i b)), tag := some (b64Encode tag),
                data := some (b64Encode ct) } keyBase64
        = .error .authenticationFailed) ∧
    (∀ keyBase64' : String, (b64Decode keyBase64').length = 32 →
      b64Decode keyBase64' ≠ key →
      decrypt { iv := some (b64Encode nonce), tag := some (b64Encode tag),
                data := some (b64Encode ct) } keyBase64'
        = .error .authenticationFailed) := by
  subst hkey hnonce hct htag
  have hkb : ∀ b ∈ b64Decode keyBase64, b < 256 := b64Decode_lt keyBase64
  have hnb := randomBytes12_lt entropy
  have hctb := gcmEncryptBytes_lt (b64Decode keyBase64) (randomBytes12 entropy) p hp
  have htagb := gcmTag_lt (b64Decode keyBase64) (randomBytes12 entropy)
    (gcmEncryptBytes (b64Decode keyBase64) (randomBytes12 entropy) p) hkb hnb hctb
  refine ⟨encrypt_eq_ok p keyBase64 entropy hk, ?_, ?_, ?_, ?_⟩
  · intro i b hi hblt hbne
    rw [decrypt_present _ _ _ _ hk hnb htagb (set_lt hctb hblt)]
    rw [if_neg]
    intro heq
    unfold gcmTag at heq
    have h1 := List.append_cancel_left heq
    exact set_ne_self_of_getD hi hbne h1.symm
  · intro i b hi hblt hbne
    rw [decrypt_present _ _ _ _ hk hnb (set_lt htagb hblt) hctb]
    rw [if_neg]
    intro heq
    exact set_ne_self_of_getD hi hbne heq
  · intro i b hi hblt hbne
    have hi12 : i < (randomBytes12 entropy).length := by
      rw [randomBytes12_length]
      exact hi
    rw [decrypt_present _ _ _ _ hk (set_lt hnb hblt) htagb hctb]
    rw [if_neg]
    intro heq
    unfold gcmTag at heq
    have h1 := List.append_cancel_right heq
    have h2 := List.append_cancel_left h1
    exact set_ne_self_of_getD hi12 hbne h2.symm
  · intro keyBase64' hk' hne
    rw [decrypt_present _ _ _ _ hk' hnb htagb hctb]
    rw [if_neg]
    intro heq
    unfold gcmTag at heq
    have h1 := List.append_cancel_right heq
    have h2 := List.append_cancel_right h1
    exact hne h2.symm

/-- Concrete key, nonce, ciphertext and tag used to witness C4. -/
def wKey : String := b64Encode (List.replicate 32 171)

/-- A second, different 32-byte key for the wrong-key conjunct of C4. -/
def wOtherKey : String := b64Encode (List.replicate 32 172)

/-- The nonce drawn by the C4 witness call. -/
def wNonce : List Nat := randomBytes12 (fun i => i)

/-- The ciphertext of the C4 witness call. -/
def wCt : List Nat := gcmEncryptBytes (b64Decode wKey) wNonce [104, 105]

/-- The tag of the C4 witness call. -/
def wTag : List Nat := gcmTag (b64Decode wKey) wNonce wCt

/-- C4 witness: the envelope of a concrete call, with each kind of
single-byte corruption (ciphertext, tag, nonce) and a different key, all
rejected as `authenticationFailed`. -/
theorem C4_authentication_witness :
    encrypt [104, 105] wKey (fun i => i)
        = .ok { iv := b64Encode wNonce, tag := b64Encode wTag, data := b64Encode wCt } ∧
    decrypt { iv := some (b64Encode wNonce), tag := some (b64Encode wTag),
              data := some (b64Encode (wCt.set 0 0)) } wKey
        = .error .authenticationFailed ∧
    decrypt { iv := some (b64Encode wNonce), tag := some (b64Encode (wTag.set 0 0)),
              data := some (b64Encode wCt) } wKey
        = .error .authenticationFailed ∧
    decrypt { iv := some (b64Encode (wNonce.set 0 1)), tag := some (b64Encode wTag),
              data := some (b64Encode wCt) } wKey
        = .error .authenticationFailed ∧
    decrypt { iv := some (b64Encode wNonce), tag := some (b64Encode wTag),
              data := some (b64Encode wCt) } wOtherKey
        = .error .authenticationFailed := by
  have h := C4_authentication [104, 105] wKey (fun i => i)
    (b64Decode wKey) wNonce wCt wTag
    (by rfl) (by decide) rfl rfl rfl rfl
  exact ⟨h.1,
    h.2.1 0 0 (by decide) (by decide) (by decide),
    h.2.2.1 0 0 (by decide) (by decide) (by decide),
    h.2.2.2.1 0 1 (by decide) (by decide) (by decide),
    h.2.2.2.2 wOtherKey (by rfl) (by decide)⟩

/-- C2 counterexample: an envelope whose `data` field contains `'!'` — a
character that is not valid base64 — is not rejected at all: Node's
decoder ignores the character and `decrypt` succeeds, returning the
original plaintext.  This refutes the claim that a field with invalid
base64 fails with a `MalformedEnvelope` error. -/
theorem C2_counterexample :
    b64CharVal '!' = none ∧
    decrypt { iv := some (b64Encode wNonce), tag := some (b64Encode wTag),
              data := some ((b64Encode wCt).push '!') } wKey = .ok [104, 105] :=
  ⟨by rfl, by rfl⟩

/-- C2 amended: the codec has no malformed-envelope error.  A transport
envelope missing one of its three fields fails (under a valid 32-byte
key) with the `TypeError` thrown by the byte conversion on the absent
field — distinct from `authenticationFailed` but not a dedicated
malformed-envelope error — while a non-base64 character in any field is
ignored by the decoder, so decoding behaves exactly as on the field
without that character (possibly succeeding). -/
theorem C2_no_malformed_envelope (keyBase64 iv tg dt : String)
    (tago dato : Option String) (c : Char)
    (hk : (b64Decode keyBase64).length = 32) (hc : b64CharVal c = none) :
    decrypt { iv := none, tag := tago, data := dato } keyBase64 = .error .typeError ∧
    decrypt { iv := some iv, tag := none, data := dato } keyBase64 = .error .typeError ∧
    decrypt { iv := some iv, tag := some tg, data := none } keyBase64 = .error .typeError ∧
    decrypt { iv := some (iv.push c), tag := some tg, data := some dt } keyBase64
      = decrypt { iv := some iv, tag := some tg, data := some dt } keyBase64 ∧
    decrypt { iv := some iv, tag := some (tg.push c), data := some dt } keyBase64
      = decrypt { iv := some iv, tag := some tg, data := some dt } keyBase64 ∧
    decrypt { iv := some iv, tag := some tg, data := some (dt.push c) } keyBase64
      = decrypt { iv := some iv, tag := some tg, data := some dt } keyBase64 := by
  have hcond : ¬((b64Decode keyBase64).length ≠ 32) := by simp [hk]
  refine ⟨?_, ?_, ?_, ?_, ?_, ?_⟩ <;>
    simp only [decrypt, bufferFromB64, if_neg hcond, b64Decode_push_invalid _ c hc] <;> rfl

/-- C2 amended witness: missing `iv` field rejected with the byte-layer
`TypeError`; an appended `'!'` in the `iv` field leaves the outcome
unchanged. -/
theorem C2_no_malformed_envelope_witness :
    (b64Decode wKey).length = 32 ∧ b64CharVal '!' = none ∧
    decrypt { iv := none, tag := some "AA", data := some "AA" } wKey
      = .error .typeError ∧
    decrypt { iv := some ("AA".push '!'), tag := some "AA", data := some "AA" } wKey
      = decrypt { iv := some "AA", tag := some "AA", data := some "AA" } wKey := by
  have h := C2_no_malformed_envelope wKey "AA" "AA" "AA" (some "AA") (some "AA") '!'
    (by rfl) (by rfl)
  exact ⟨by rfl, by rfl, h.1, h.2.2.2.1⟩

/-! ## Client lemmas and fixtures -/

theorem except_bind_ok {ε α β : Type} (a : α) (f : α → Except ε β) :
    (Except.ok a : Except ε α) >>= f = f a := rfl

theorem except_bind_error {ε α β : Type} (e : ε) (f : α → Except ε β) :
    (Except.error e : Except ε α) >>= f = Except.error e := rfl

/-- Whenever `buildRequest` succeeds, the sent URL is exactly the stored
(normalized) base URL concatenated with the path. -/
theorem buildRequest_url (st : SafeChatState) (method path : String) (body : Option Json)
    (entropy : Nat → Nat) (out : OutboundRequest)
    (h : SafeChat.buildRequest st method path body entropy = .ok out) :
    out.url = st.baseUrl ++ path := by
  unfold SafeChat.buildRequest at h
  cases body with
  | none =>
    rw [← Except.ok.inj h]
  | some b =>
    dsimp only at h
    by_cases htk : truthyKey st.encryptionKey = true
    · rw [if_pos htk] at h
      cases henc : encrypt (strToBytes (jsonStringify b)) (st.encryptionKey.getD "") entropy with
      | error e =>
        rw [henc] at h
        cases h
      | ok env =>
        rw [henc] at h
        rw [← Except.ok.inj h]
    · rw [if_neg htk] at h
      rw [← Except.ok.inj h]

/-- A client state with no encryption key, as the tests construct one. -/
def wPlainState : SafeChatState :=
  { apiKey := "sc_test_123", encryptionKey := none, baseUrl := "http://localhost",
    timeout := 30000 }

/-- The outbound request of a body-less call on `wPlainState`. -/
def wOutNoBody : OutboundRequest :=
  { method := "GET", url := "http://localhost/v1/usage",
    headers := [("X-API-Key", "sc_test_123"), ("Accept", "application/json")],
    payload := none }

/-- A successful response flagged `x-encrypted` whose body is plain JSON. -/
def wEncResponse : HttpResponse :=
  { ok := true, status := 200, statusText := "OK",
    headers := [("x-encrypted", "true")], body := "\x7b\"a\":1\x7d" }

/-- A failing response whose body is not valid JSON. -/
def wFailResponse : HttpResponse :=
  { ok := false, status := 404, statusText := "Not Found", headers := [], body := "oops" }

/-- C1 counterexample: a successful response carries `x-encrypted: true`
while the client has no encryption key configured; `request` does not fail
(with `UnexpectedEncryption` or anything else) — it returns the body
parsed as plain JSON, here the transport envelope object itself. -/
theorem C1_counterexample :
    SafeChat.request wPlainState "GET" "/v1/usage" none (fun i => i)
      { ok := true, status := 200, statusText := "OK",
        headers := [("x-encrypted", "true")],
        body := "\x7b\"iv\":\"AA\",\"tag\":\"AA\",\"data\":\"AA\"\x7d" }
      = .ok (Json.obj [("iv", Json.str "AA"), ("tag", Json.str "AA"),
          ("data", Json.str "AA")]) := by
  rfl

/-- C1 amended: for every successful response whose inbound Signal
(`x-encrypted: true`) is set while no encryption key is configured,
`request` does not fail: it returns the response body parsed as plain
JSON (the client has no `UnexpectedEncryption` error). -/
theorem C1_unexpected_encryption_not_raised (st : SafeChatState) (method path : String)
    (body : Option Json) (entropy : Nat → Nat) (res : HttpResponse) (v : Json)
    (hkey : truthyKey st.encryptionKey = false)
    (hok : res.ok = true)
    (hsig : headerGet res.headers "x-encrypted" = some "true")
    (hparse : jsonParse res.body = some v) :
    SafeChat.request st method path body entropy res = .ok v := by
  cases body with
  | none =>
    simp [SafeChat.request, SafeChat.buildRequest, SafeChat.handleResponse, hok, hkey,
      hsig, hparse, except_bind_ok]
  | some b =>
    simp [SafeChat.request, SafeChat.buildRequest, SafeChat.handleResponse, hok, hkey,
      hsig, hparse, except_bind_ok]

/-- C1 amended witness: concrete call on a key-less client with a flagged
response returns the parsed plain JSON body. -/
theorem C1_unexpected_encryption_not_raised_witness :
    truthyKey wPlainState.encryptionKey = false ∧ wEncResponse.ok = true ∧
    headerGet wEncResponse.headers "x-encrypted" = some "true" ∧
    SafeChat.request wPlainState "GET" "/v1/usage" none (fun i => i) wEncResponse
      = .ok (Json.obj [("a", Json.num 1)]) :=
  ⟨by rfl, by rfl, by rfl,
    C1_unexpected_encryption_not_raised wPlainState "GET" "/v1/usage" none (fun i => i)
      wEncResponse (Json.obj [("a", Json.num 1)]) (by rfl) (by rfl) (by rfl) (by rfl)⟩

/-- C6: on every transmitted call, the outbound Signal (the `X-Encrypted:
true` header) is present exactly when an encryption key is configured
(truthy) and a body is present; in that case the transmitted payload is
the transport-form envelope of the JSON-serialized body; with no key the
body is transmitted as plain JSON, and with no body nothing is
transmitted. -/
theorem C6_outbound_signal (st : SafeChatState) (method path : String) (body : Option Json)
    (entropy : Nat → Nat) (out : OutboundRequest)
    (h : SafeChat.buildRequest st method path body entropy = .ok out) :
    ((("X-Encrypted", "true") ∈ out.headers)
        ↔ (truthyKey st.encryptionKey = true ∧ body ≠ none)) ∧
    (∀ b, body = some b → truthyKey st.encryptionKey = true →
      ∃ env, encrypt (strToBytes (jsonStringify b)) (st.encryptionKey.getD "") entropy
          = .ok env ∧ out.payload = some (stringifyEnvelope env)) ∧
    (∀ b, body = some b → truthyKey st.encryptionKey = false →
      out.payload = some (jsonStringify b)) ∧
    (body = none → out.payload = none) := by
  unfold SafeChat.buildRequest at h
  cases body with
  | none =>
    rw [← Except.ok.inj h]
    refine ⟨?_, ?_, ?_, ?_⟩
    · simp
    · intro b hb
      cases hb
    · intro b hb
      cases hb
    · intro _
      rfl
  | some b =>
    dsimp only at h
    by_cases htk : truthyKey st.encryptionKey = true
    · rw [if_pos htk] at h
      cases henc : encrypt (strToBytes (jsonStringify b)) (st.encryptionKey.getD "") entropy with
      | error e =>
        rw [henc] at h
        cases h
      | ok env =>
        rw [henc] at h
        rw [← Except.ok.inj h]
        refine ⟨?_, ?_, ?_, ?_⟩
        · simp [htk]
        · intro b' hb' _
          cases hb'
          exact ⟨env, henc, rfl⟩
        · intro b' hb' hfalse
          rw [htk] at hfalse
          cases hfalse
        · intro hn
          cases hn
    · rw [if_neg htk] at h
      rw [← Except.ok.inj h]
      rw [Bool.not_eq_true] at htk
      refine ⟨?_, ?_, ?_, ?_⟩
      · simp [htk]
      · intro b' hb' htrue
        rw [htk] at htrue
        cases htrue
      · intro b' hb' _
        cases hb'
        rfl
      · intro hn
        cases hn

/-- C6 witness: a body-less call on a key-less client transmits no
payload and carries no Signal header. -/
theorem C6_outbound_signal_witness :
    SafeChat.buildRequest wPlainState "GET" "/v1/usage" none (fun i => i) = .ok wOutNoBody ∧
    (("X-Encrypted", "true") ∈ wOutNoBody.headers
      ↔ (truthyKey wPlainState.encryptionKey = true ∧ (none : Option Json) ≠ none)) ∧
    wOutNoBody.payload = none := by
  have h := C6_outbound_signal wPlainState "GET" "/v1/usage" none (fun i => i) wOutNoBody
    (by rfl)
  exact ⟨by rfl, h.1, h.2.2.2 rfl⟩

/-- C7 counterexample: a non-success response whose body is exactly
`null` — valid JSON, so `res.json()` succeeds inside the `try` — does not
raise `SafeChatError`: the `errorBody.error` read at `client.ts` line 208
throws an uncaught `TypeError` on the `null` error body. -/
theorem C7_counterexample :
    SafeChat.request wPlainState "GET" "/v1/usage" none (fun i => i)
      { ok := false, status := 404, statusText := "Not Found", headers := [],
        body := "null" }
      = .error .typeError := by
  rfl

/-- C7 amended: on a response with a non-success status, `request` never
returns a result value; it fails with the `SafeChatError` carrying the
status code and the body parsed as the error payload — the minimal
`(error: statusText)` payload when the body is not valid JSON — except
when the body parses to JSON `null`, where reading the `error` property
of `null` throws an uncaught `TypeError` instead. -/
theorem C7_request_failed (st : SafeChatState) (method path : String) (body : Option Json)
    (entropy : Nat → Nat) (res : HttpResponse) (out : OutboundRequest)
    (hbuild : SafeChat.buildRequest st method path body entropy = .ok out)
    (hok : res.ok = false) :
    (∀ v, SafeChat.request st method path body entropy res ≠ .ok v) ∧
    (∀ j p, jsonParse res.body = some j → jsProp j "error" = .ok p →
      SafeChat.request st method path body entropy res
        = .error (.safeChatError (errorMessage p res.status) res.status j)) ∧
    (jsonParse res.body = some Json.null →
      SafeChat.request st method path body entropy res = .error .typeError) ∧
    (jsonParse res.body = none →
      SafeChat.request st method path body entropy res
        = .error (.safeChatError
            (errorMessage (some (Json.str res.statusText)) res.status)
            res.status (Json.obj [("error", Json.str res.statusText)]))) := by
  refine ⟨?_, ?_, ?_, ?_⟩
  · intro v hv
    unfold SafeChat.request at hv
    rw [hbuild, except_bind_ok] at hv
    unfold SafeChat.handleResponse at hv
    rw [hok] at hv
    simp only [Bool.not_false, if_true] at hv
    rcases hparse : jsonParse res.body with _ | j <;> rw [hparse] at hv <;>
      dsimp only at hv
    · cases hv
    · rcases hprop : jsProp j "error" with _ | p <;> rw [hprop] at hv <;> cases hv
  · intro j p hj hp
    unfold SafeChat.request
    rw [hbuild, except_bind_ok]
    unfold SafeChat.handleResponse
    rw [hok]
    simp only [Bool.not_false, if_true, hj, hp]
  · intro hj
    unfold SafeChat.request
    rw [hbuild, except_bind_ok]
    unfold SafeChat.handleResponse
    rw [hok]
    simp only [Bool.not_false, if_true, hj]
    rfl
  · intro hj
    unfold SafeChat.request
    rw [hbuild, except_bind_ok]
    unfold SafeChat.handleResponse
    rw [hok]
    simp only [Bool.not_false, if_true, hj]
    rfl

/-- C7 amended witness: a 404 whose body is not JSON raises the
`SafeChatError` with status 404 and the fallback `(error: statusText)`
payload, and a 404 whose body is an error object raises the
`SafeChatError` carrying that object. -/
theorem C7_request_failed_witness :
    jsonParse wFailResponse.body = none ∧
    SafeChat.request wPlainState "GET" "/v1/usage" none (fun i => i) wFailResponse
      = .error (.safeChatError
          (errorMessage (some (Json.str "Not Found")) 404) 404
          (Json.obj [("error", Json.str "Not Found")])) ∧
    SafeChat.request wPlainState "GET" "/v1/usage" none (fun i => i)
      { ok := false, status := 429, statusText := "Too Many Requests", headers := [],
        body := "\x7b\"error\":\"rate limited\"\x7d" }
      = .error (.safeChatError (errorMessage (some (Json.str "rate limited")) 429) 429
          (Json.obj [("error", Json.str "rate limited")])) := by
  have h := C7_request_failed wPlainState "GET" "/v1/usage" none (fun i => i)
    wFailResponse wOutNoBody (by rfl) (by rfl)
  have h2 := C7_request_failed wPlainState "GET" "/v1/usage" none (fun i => i)
    { ok := false, status := 429, statusText := "Too Many Requests", headers := [],
      body := "\x7b\"error\":\"rate limited\"\x7d" }
    wOutNoBody (by rfl) (by rfl)
  exact ⟨by rfl, h.2.2.2 (by rfl),
    h2.2.1 (Json.obj [("error", Json.str "rate limited")])
      (some (Json.str "rate limited")) (by rfl) (by rfl)⟩

/-- The head surviving a `dropWhile` does not satisfy the predicate. -/
theorem head?_dropWhile_not {p : Char → Bool} {l : List Char} {x : Char}
    (h : (l.dropWhile p).head? = some x) : p x = false := by
  induction l with
  | nil => simp [List.dropWhile] at h
  | cons a rest ih =>
    rw [List.dropWhile_cons] at h
    by_cases hp : p a = true
    · rw [if_pos hp] at h
      exact ih h
    · rw [if_neg hp] at h
      simp only [List.head?_cons, Option.some.injEq] at h
      subst h
      exact Bool.not_eq_true _ |>.mp hp

/-- Trailing slashes are exactly what `stripTrailingSlashes` removes. -/
theorem stripTrailingSlashes_append_slashes (b : String) (n : Nat) :
    stripTrailingSlashes (b ++ String.mk (List.replicate n '/')) = stripTrailingSlashes b := by
  unfold stripTrailingSlashes
  rw [String.data_append]
  show String.mk ((b.data ++ List.replicate n '/').reverse.dropWhile _).reverse = _
  rw [List.reverse_append, List.reverse_replicate]
  congr 1
  have key : ∀ m (l : List Char),
      (List.replicate m '/' ++ l).dropWhile (fun c => c == '/')
        = l.dropWhile (fun c => c == '/') := by
    intro m
    induction m with
    | zero => intro l; rfl
    | succ k ih =>
      intro l
      rw [List.replicate_succ, List.cons_append, List.dropWhile_cons]
      simp [ih]
  rw [key]

/-- The normalized base URL never ends in a slash. -/
theorem stripTrailingSlashes_no_trailing (b : String) :
    (stripTrailingSlashes b).data.getLast? ≠ some '/' := by
  unfold stripTrailingSlashes
  show (((b.data.reverse.dropWhile _).reverse).getLast? ≠ _)
  rw [List.getLast?_reverse]
  intro h
  have := head?_dropWhile_not h
  simp at this

/-- C9: the constructor strips all trailing slashes from the configured
base URL — base URLs differing only in trailing slashes construct
identical clients — and every transmitted request URL is exactly the
normalized base URL concatenated with the path, which cannot introduce a
doubled slash at the seam because the normalized base never ends in `/`. -/
theorem C9_base_url_normalization (apiKey b path : String) (ek : Option String)
    (tmo : Option Nat) (n : Nat) (hapi : apiKey ≠ "") :
    (SafeChat.construct
        { apiKey := apiKey, encryptionKey := ek, baseUrl := some b, timeout := tmo }
      = SafeChat.construct
        { apiKey := apiKey, encryptionKey := ek,
          baseUrl := some (b ++ String.mk (List.replicate n '/')), timeout := tmo }) ∧
    (SafeChat.construct
        { apiKey := apiKey, encryptionKey := ek, baseUrl := some b, timeout := tmo }
      = .ok { apiKey := apiKey, encryptionKey := ek, baseUrl := stripTrailingSlashes b,
              timeout := tmo.getD DEFAULT_TIMEOUT }) ∧
    (∀ st method body entropy out,
      SafeChat.construct
          { apiKey := apiKey, encryptionKey := ek, baseUrl := some b, timeout := tmo }
        = .ok st →
      SafeChat.buildRequest st method path body entropy = .ok out →
      out.url = stripTrailingSlashes b ++ path) ∧
    (stripTrailingSlashes b).data.getLast? ≠ some '/' := by
  refine ⟨?_, ?_, ?_, stripTrailingSlashes_no_trailing b⟩
  · simp [SafeChat.construct, hapi, stripTrailingSlashes_append_slashes]
  · simp [SafeChat.construct, hapi]
  · intro st method body entropy out hcons hbuild
    have hb : st.baseUrl = stripTrailingSlashes b := by
      simp only [SafeChat.construct] at hcons
      rw [if_neg hapi] at hcons
      rw [← Except.ok.inj hcons]
      rfl
    rw [buildRequest_url st method path body entropy out hbuild, hb]

/-- C9 witness: two base URLs differing only in trailing slashes build
identical clients, and the normalized base does not end in a slash. -/
theorem C9_base_url_normalization_witness :
    SafeChat.construct
        { apiKey := "k", encryptionKey := none, baseUrl := some "http://h",
          timeout := none }
      = SafeChat.construct
        { apiKey := "k", encryptionKey := none,
          baseUrl := some ("http://h" ++ String.mk (List.replicate 2 '/')),
          timeout := none } ∧
    (stripTrailingSlashes "http://h").data.getLast? ≠ some '/' := by
  have h := C9_base_url_normalization "k" "http://h" "/p" none none 2 (by decide)
  exact ⟨h.1, h.2.2.2⟩

/-- C10: construction validates only the API key — any encryption key
(malformed or not) is accepted and stored untouched — and a call carrying
no body on any state succeeds whenever the response is successful and not
flagged encrypted, so an invalid-length key surfaces only when `encrypt`
or `decrypt` actually runs. -/
theorem C10_key_not_validated_at_construction (opts : SafeChatOptions) :
    (opts.apiKey ≠ "" → SafeChat.construct opts
        = .ok { apiKey := opts.apiKey, encryptionKey := opts.encryptionKey,
                baseUrl := stripTrailingSlashes (opts.baseUrl.getD DEFAULT_BASE_URL),
                timeout := opts.timeout.getD DEFAULT_TIMEOUT }) ∧
    (opts.apiKey = "" → SafeChat.construct opts = .error "apiKey is required") ∧
    (∀ (st : SafeChatState) (method path : String) (entropy : Nat → Nat)
        (res : HttpResponse) (v : Json),
      res.ok = true →
      headerGet res.headers "x-encrypted" ≠ some "true" →
      jsonParse res.body = some v →
      SafeChat.request st method path none entropy res = .ok v) := by
  refine ⟨?_, ?_, ?_⟩
  · intro h
    simp [SafeChat.construct, h]
  · intro h
    simp [SafeChat.construct, h]
  · intro st method path entropy res v hok hsig hparse
    have hsigb : (headerGet res.headers "x-encrypted" == some "true") = false :=
      beq_eq_false_iff_ne.mpr hsig
    simp [SafeChat.request, SafeChat.buildRequest, SafeChat.handleResponse, hok, hsigb,
      hparse, except_bind_ok]

/-- C10 witness: a client constructed with a malformed (3-byte)
encryption key, where a body-less call with an unflagged response still
succeeds. -/
theorem C10_key_not_validated_at_construction_witness :
    SafeChat.construct
        { apiKey := "sc", encryptionKey := some "short", baseUrl := some "http://h",
          timeout := none }
      = .ok { apiKey := "sc", encryptionKey := some "short",
              baseUrl := stripTrailingSlashes "http://h", timeout := DEFAULT_TIMEOUT } ∧
    (b64Decode "short").length ≠ 32 ∧
    SafeChat.request
      { apiKey := "sc", encryptionKey := some "short", baseUrl := "http://h",
        timeout := 30000 } "GET" "/v1/usage" none (fun i => i)
      { ok := true, status := 200, statusText := "OK", headers := [],
        body := "\x7b\"ok\":true\x7d" }
      = .ok (Json.obj [("ok", Json.bool true)]) := by
  have h := C10_key_not_validated_at_construction
    { apiKey := "sc", encryptionKey := some "short", baseUrl := some "http://h",
      timeout := none }
  refine ⟨h.1 (by decide), by decide, ?_⟩
  exact h.2.2 _ "GET" "/v1/usage" (fun i => i)
    { ok := true, status := 200, statusText := "OK", headers := [],
      body := "\x7b\"ok\":true\x7d" }
    (Json.obj [("ok", Json.bool true)]) (by rfl) (by decide) (by rfl)

end SafeChatSpec
